import Mathlib

/-!
Verification of the dozey-ai lecture-recording application.

This file gives a shallow embedding, in Lean 4, of the parts of the
TypeScript source that the specification talks about:

* `src/services/storage.ts` — the IndexedDB (Dexie) local store:
  `generateSearchText`, `saveRecording`, `getAllRecordings`,
  `updateRecording`, `searchRecordings`, `filterRecordings`.
* `src/services/apiKeyManager.ts` — `validateOpenAIKey`,
  `validateAnthropicKey`.
* `src/services/whisperApi.ts` — `transcribeAudio` (size ceiling check,
  provider-error classification, empty-result check).
* `src/services/claudeApi.ts` — `generateNotes` (empty-input check,
  provider-error classification, empty-result check).
* `src/components/RecordingItem.tsx` — `handleGenerateNotes`, the
  workflow orchestrator, and the disabled condition of the
  "Generate Notes" button.
* `src/services/audioRecorder.ts` — the `AudioRecorder`
  start/pause/resume/stop lifecycle and its duration arithmetic.

Modelling conventions:

* JavaScript strings are modelled as `List Char` (`Str`).  String
  methods (`trim`, `toLowerCase`, `startsWith`, `includes`, regex
  replacement) are translated character by character; the JS regexes in
  the source use only the ASCII classes `\w` and `\s`, which are
  modelled numerically on code points.
* `Date.now()` timestamps and byte sizes are `Nat`.  The only numeric
  operations the source performs on them are subtraction of an earlier
  timestamp from a later one, `Math.round(x / 1000)` (modelled as
  `(x + 500) / 1000`, exact for the integer millisecond values
  involved) and the Whisper size test `size / (1024*1024) > 25`, which
  for any realistic size is an exact power-of-two scaling in IEEE
  doubles and hence equivalent to the integer comparison
  `size > 25 * 1024 * 1024` used here.
* The two remote providers are opaque: each call's outcome is an input
  of the model (an `Except`-like inductive), and the client functions
  translate that outcome exactly as the `catch` blocks in the source
  classify it.
* `async`/`await` sequencing inside one invocation is linear, so the
  orchestrator is a pure function from the record, the configured keys
  and the two provider outcomes to the final record plus the ordered
  list of status values it persisted.  A thrown JS exception is an
  `Except.error`/`Option.some` carrying the message string.
-/

namespace Dozey

/-- JavaScript strings, modelled as lists of characters. -/
abbrev Str := List Char

/-- Coerce a Lean string literal into the model's string type. -/
def str (s : String) : Str := s.data

/-- The ASCII whitespace class of the JS regex `\s` and of
`String.prototype.trim` (space, tab, LF, CR, VT, FF), on code points. -/
def jsIsSpace (c : Char) : Bool :=
  c.toNat = 32 || c.toNat = 9 || c.toNat = 10 || c.toNat = 13 ||
  c.toNat = 11 || c.toNat = 12

/-- The JS regex class `\w`: ASCII letters, digits and underscore. -/
def isWordChar (c : Char) : Bool :=
  (65 ≤ c.toNat && c.toNat ≤ 90) || (97 ≤ c.toNat && c.toNat ≤ 122) ||
  (48 ≤ c.toNat && c.toNat ≤ 57) || c.toNat = 95

/-- JS `String.prototype.toLowerCase` restricted to the ASCII letters the
source ever compares (the stored search text and query are compared by
substring containment, for which the ASCII mapping is the relevant one). -/
def toLowerStr (s : Str) : Str := s.map Char.toLower

/-- JS `String.prototype.trim`: drop leading and trailing whitespace. -/
def trimStr (s : Str) : Str :=
  ((s.dropWhile jsIsSpace).reverse.dropWhile jsIsSpace).reverse

/-- JS `String.prototype.includes`: substring containment. -/
def strIncludes : Str → Str → Bool
  | [], sub => sub.isEmpty
  | c :: t, sub => sub.isPrefixOf (c :: t) || strIncludes t sub

/-- The recording status enum of `src/types/index.ts`. -/
inductive Status where
  | recorded
  | transcribing
  | transcribed
  | generating_notes
  | complete
  | error
deriving DecidableEq, Repr

/-- The priority levels of `src/types/index.ts`. -/
inductive Priority where
  | low
  | medium
  | high
deriving DecidableEq, Repr

/-- A Whisper transcript segment (`TranscriptSegment` in
`src/types/index.ts`); start and end times are seconds. -/
structure Segment where
  text : Str
  startSec : Nat
  endSec : Nat
deriving DecidableEq, Repr

/-- The `Recording` interface of `src/types/index.ts`.  Optional fields
are `Option`; the audio blob is represented by its byte size, the only
attribute of it the modelled code inspects; `Date` values are epoch
milliseconds. -/
structure Rec where
  id : Option Nat
  filename : Str
  customName : Option Str
  date : Nat
  duration : Nat
  audioSize : Nat
  transcript : Option Str
  notes : Option Str
  status : Status
  errorMessage : Option Str
  mimeType : Str
  tags : Option (List Str)
  category : Option Str
  subject : Option Str
  searchText : Option Str
  priority : Option Priority
  isStudied : Option Bool
  lastModified : Option Nat
  exportedAt : Option Nat
  transcriptSegments : Option (List Segment)
deriving DecidableEq, Repr

/-- A convenient base record: every optional field absent.  Used only to
write concrete instances compactly. -/
def baseRec : Rec where
  id := none
  filename := []
  customName := none
  date := 0
  duration := 0
  audioSize := 0
  transcript := none
  notes := none
  status := Status.recorded
  errorMessage := none
  mimeType := str "audio/webm"
  tags := none
  category := none
  subject := none
  searchText := none
  priority := none
  isStudied := none
  lastModified := none
  exportedAt := none
  transcriptSegments := none

/-- Model of `generateSearchText` in `src/services/storage.ts`: join the
searchable fields with spaces, lowercase, replace every character
matching `[^\w\s]` by a space, collapse `\s+` runs to single spaces,
and trim. -/
def searchParts (r : Rec) : List Str :=
  [r.filename, r.customName.getD [], r.transcript.getD [],
   r.notes.getD [], r.subject.getD [], r.category.getD []] ++ r.tags.getD []

/-- The regex replacement `.replace(/[^\w\s]/g, ' ')`. -/
def replaceSpecial (s : Str) : Str :=
  s.map fun c => if isWordChar c || jsIsSpace c then c else ' '

/-- The regex replacement `.replace(/\s+/g, ' ')`: collapse every
maximal whitespace run to a single space. -/
def collapseWs : Str → Str
  | [] => []
  | [c] => if jsIsSpace c then [' '] else [c]
  | c₁ :: c₂ :: t =>
      if jsIsSpace c₁ && jsIsSpace c₂ then collapseWs (c₂ :: t)
      else (if jsIsSpace c₁ then ' ' else c₁) :: collapseWs (c₂ :: t)

/-- Function `generateSearchText` itself. -/
def generateSearchText (r : Rec) : Str :=
  trimStr (collapseWs (replaceSpecial (toLowerStr
    (List.intercalate [' '] (searchParts r)))))

/-- The lazy-backfill read of the search blob used by `searchRecordings`
and `filterRecordings`: `recording.searchText || generateSearchText(recording)`
(an absent or empty stored blob falls back to recomputation). -/
def searchTextOf (r : Rec) : Str :=
  match r.searchText with
  | some s => if s.isEmpty then generateSearchText r else s
  | none => generateSearchText r

/-- The recordings table contents, in insertion order (what
`db.recordings.toArray()` yields). -/
abbrev Store := List Rec

/-- Model of `getAllRecordings` in `src/services/storage.ts`:
`orderBy('date').reverse()`, i.e. sort ascending by date and reverse,
giving newest-first order. -/
def getAllRecordings (store : Store) : List Rec :=
  (store.mergeSort fun a b => decide (a.date ≤ b.date)).reverse

/-- Model of `searchRecordings` in `src/services/storage.ts`: a blank query
returns `getAllRecordings`; otherwise keep the records whose search
blob contains the lowercased, trimmed query. -/
def searchRecordings (store : Store) (query : Str) : List Rec :=
  if trimStr query = [] then getAllRecordings store
  else
    let normalizedQuery := trimStr (toLowerStr query)
    store.filter fun r => strIncludes (searchTextOf r) normalizedQuery

/-- The `FilterOptions` interface of `src/types/index.ts`. -/
structure FilterOptions where
  searchQuery : Option Str := none
  tags : Option (List Str) := none
  category : Option Str := none
  status : Option Status := none
  isStudied : Option Bool := none
  priority : Option Priority := none
  dateFrom : Option Nat := none
  dateTo : Option Nat := none

/-- The `searchQuery` branch of `filterRecordings` (guarded by
`filters.searchQuery?.trim()` being truthy). -/
def applySearchFilter (f : FilterOptions) (l : List Rec) : List Rec :=
  match f.searchQuery with
  | some q =>
      if trimStr q = [] then l
      else l.filter fun r => strIncludes (searchTextOf r) (trimStr (toLowerStr q))
  | none => l

/-- The tags branch: OR over the supplied tag list, skipped when absent
or empty; a record without a `tags` field never matches. -/
def applyTagsFilter (f : FilterOptions) (l : List Rec) : List Rec :=
  match f.tags with
  | some ts =>
      if ts.isEmpty then l
      else l.filter fun r => (r.tags.getD []).any fun t => ts.contains t
  | none => l

/-- The category branch (guarded by `filters.category` being truthy, so
an empty category string is also skipped). -/
def applyCategoryFilter (f : FilterOptions) (l : List Rec) : List Rec :=
  match f.category with
  | some c => if c.isEmpty then l else l.filter fun r => r.category == some c
  | none => l

/-- The status branch (every status string is truthy). -/
def applyStatusFilter (f : FilterOptions) (l : List Rec) : List Rec :=
  match f.status with
  | some s => l.filter fun r => r.status == s
  | none => l

/-- The isStudied branch (guarded by `!== undefined`); JS strict
equality `rec.isStudied === filters.isStudied` is false when the record
has no `isStudied` field. -/
def applyStudiedFilter (f : FilterOptions) (l : List Rec) : List Rec :=
  match f.isStudied with
  | some b => l.filter fun r => r.isStudied == some b
  | none => l

/-- The priority branch (every priority string is truthy). -/
def applyPriorityFilter (f : FilterOptions) (l : List Rec) : List Rec :=
  match f.priority with
  | some p => l.filter fun r => r.priority == some p
  | none => l

/-- The date-range branch: entered when either bound is present, each
bound checked only when present (inclusive comparisons). -/
def applyDateFilter (f : FilterOptions) (l : List Rec) : List Rec :=
  match f.dateFrom, f.dateTo with
  | none, none => l
  | df, dt =>
      l.filter fun r =>
        (match df with | some a => decide (a ≤ r.date) | none => true) &&
        (match dt with | some b => decide (r.date ≤ b) | none => true)

/-- The final `sort((a, b) => dateB - dateA)`: descending by date. -/
def sortByDateDesc (l : List Rec) : List Rec :=
  l.mergeSort fun a b => decide (b.date ≤ a.date)

/-- Model of `filterRecordings` in `src/services/storage.ts`: apply the supplied
criteria in source order (each one an AND-refinement), then sort
newest-first. -/
def filterRecordings (f : FilterOptions) (store : Store) : List Rec :=
  sortByDateDesc
    (applyDateFilter f
      (applyPriorityFilter f
        (applyStudiedFilter f
          (applyStatusFilter f
            (applyCategoryFilter f
              (applyTagsFilter f
                (applySearchFilter f store)))))))

/-- A partial update (`Partial<Omit<Recording, 'id'>>`): `none` means
the field is not mentioned; for optional record fields the inner
`Option` is the new value (`some none` erases the field, as passing
`undefined` does in Dexie). -/
structure RecPatch where
  filename : Option Str := none
  customName : Option (Option Str) := none
  date : Option Nat := none
  duration : Option Nat := none
  audioSize : Option Nat := none
  transcript : Option (Option Str) := none
  notes : Option (Option Str) := none
  status : Option Status := none
  errorMessage : Option (Option Str) := none
  mimeType : Option Str := none
  tags : Option (Option (List Str)) := none
  category : Option (Option Str) := none
  subject : Option (Option Str) := none
  searchText : Option (Option Str) := none
  priority : Option (Option Priority) := none
  isStudied : Option (Option Bool) := none
  lastModified : Option (Option Nat) := none
  exportedAt : Option (Option Nat) := none
  transcriptSegments : Option (Option (List Segment)) := none

/-- Apply a partial update to a record: each mentioned field is
replaced, every other field (and the id) is kept. -/
def applyPatch (r : Rec) (p : RecPatch) : Rec where
  id := r.id
  filename := p.filename.getD r.filename
  customName := p.customName.getD r.customName
  date := p.date.getD r.date
  duration := p.duration.getD r.duration
  audioSize := p.audioSize.getD r.audioSize
  transcript := p.transcript.getD r.transcript
  notes := p.notes.getD r.notes
  status := p.status.getD r.status
  errorMessage := p.errorMessage.getD r.errorMessage
  mimeType := p.mimeType.getD r.mimeType
  tags := p.tags.getD r.tags
  category := p.category.getD r.category
  subject := p.subject.getD r.subject
  searchText := p.searchText.getD r.searchText
  priority := p.priority.getD r.priority
  isStudied := p.isStudied.getD r.isStudied
  lastModified := p.lastModified.getD r.lastModified
  exportedAt := p.exportedAt.getD r.exportedAt
  transcriptSegments := p.transcriptSegments.getD r.transcriptSegments

/-- Model of `updateRecording` in `src/services/storage.ts`.  Dexie's
`Table.update(id, changes)` applies the changes to the record whose
primary key is `id` and resolves with the number of updated records —
`1` when the key exists, `0` when it does not; it does not reject for a
missing key.  The surrounding `try`/`catch` rethrows only storage-level
failures, which a reliable store (modelled here) never produces, so the
model's error channel is never used. -/
def updateRecording (store : Store) (id : Nat) (p : RecPatch) :
    Except Str (Nat × Store) :=
  if store.any fun r => r.id == some id then
    Except.ok (1, store.map fun r => if r.id == some id then applyPatch r p else r)
  else
    Except.ok (0, store)

/-- Model of `validateOpenAIKey` in `src/services/apiKeyManager.ts`:
`key.trim().startsWith('sk-')`. -/
def validateOpenAIKey (k : Str) : Bool :=
  (str "sk-").isPrefixOf (trimStr k)

/-- Model of `validateAnthropicKey` in `src/services/apiKeyManager.ts`:
`key.trim().startsWith('sk-ant-')`. -/
def validateAnthropicKey (k : Str) : Bool :=
  (str "sk-ant-").isPrefixOf (trimStr k)

/-- The outcome of one call to a remote provider, an input of the
model: the provider either returns text, fails with an HTTP status and
message (the SDK's `APIError`), fails at the network layer (the
`TypeError` whose message mentions `fetch`), or fails in some other
unrecognised way.  The text of an `ok` outcome is the response text
already assembled (for Claude, the concatenation of its text blocks,
which the source performs verbatim). -/
inductive ApiOutcome where
  | ok (text : Str)
  | apiError (status : Nat) (msg : Str)
  | networkFailure
  | unknownFailure
deriving DecidableEq, Repr

/-- The Whisper size ceiling: `25 * 1024 * 1024` bytes.  The source
tests `audioBlob.size / (1024 * 1024) > 25`; scaling by a power of two
is exact in IEEE doubles for every realistic blob size, so the test is
exactly `size > sizeLimitBytes`. -/
def sizeLimitBytes : Nat := 25 * 1024 * 1024

/-- The size-limit message of `transcribeAudio` (the source interpolates
the size with one decimal inside the parentheses; the descriptive text
is kept verbatim). -/
def msgPayloadTooLarge : Str :=
  str "Audio file too large. Whisper API supports files up to 25MB. Consider recording shorter segments."

/-- The empty-transcription message of `transcribeAudio`. -/
def msgEmptyTranscription : Str :=
  str "Transcription returned empty text. The audio may be inaudible or too short."

/-- The network-failure message shared by both clients. -/
def msgNetwork : Str :=
  str "Network error. Please check your internet connection and try again."

/-- The `catch` classification of `transcribeAudio` for an OpenAI
`APIError` with the given status and message. -/
def classifyWhisperError (status : Nat) (msg : Str) : Str :=
  if status = 401 then str "Invalid OpenAI API key. Please check your API key in Settings."
  else if status = 429 then str "OpenAI API rate limit exceeded. Please try again later."
  else if status = 413 then str "Audio file too large for Whisper API (max 25MB)."
  else str "OpenAI API error: " ++ msg

/-- Model of `transcribeAudio` in `src/services/whisperApi.ts`, as a function of
the blob size and the provider outcome.  It returns the thrown message
or the trimmed transcript, paired with whether the provider was
actually called (the size check happens first, before any network
activity). -/
def transcribeAudio (size : Nat) (api : ApiOutcome) : Except Str Str × Bool :=
  if sizeLimitBytes < size then (Except.error msgPayloadTooLarge, false)
  else
    match api with
    | ApiOutcome.ok text =>
        if trimStr text = [] then (Except.error msgEmptyTranscription, true)
        else (Except.ok (trimStr text), true)
    | ApiOutcome.apiError status msg => (Except.error (classifyWhisperError status msg), true)
    | ApiOutcome.networkFailure => (Except.error msgNetwork, true)
    | ApiOutcome.unknownFailure => (Except.error (str "Failed to transcribe audio. Please try again."), true)

/-- The empty-input message of `generateNotes`. -/
def msgEmptyTranscriptInput : Str :=
  str "Cannot generate notes from empty transcript."

/-- The `catch` classification of `generateNotes` for an Anthropic
`APIError` with the given status and message. -/
def classifyClaudeError (status : Nat) (msg : Str) : Str :=
  if status = 401 then str "Invalid Anthropic API key. Please check your API key in Settings."
  else if status = 429 then str "Anthropic API rate limit exceeded. Please try again later."
  else if status = 400 then str "Invalid request to Claude API. The transcript may be too long or malformed."
  else str "Claude API error: " ++ msg

/-- Model of `generateNotes` in `src/services/claudeApi.ts`, as a function of the
transcript and the provider outcome: reject empty or whitespace-only
input before any call, classify provider failures, reject a
whitespace-only response, and return the trimmed notes. -/
def generateNotes (transcript : Str) (api : ApiOutcome) : Except Str Str :=
  if trimStr transcript = [] then Except.error msgEmptyTranscriptInput
  else
    match api with
    | ApiOutcome.ok text =>
        if trimStr text = [] then Except.error (str "Claude returned empty notes. Please try again.")
        else Except.ok (trimStr text)
    | ApiOutcome.apiError status msg => Except.error (classifyClaudeError status msg)
    | ApiOutcome.networkFailure => Except.error msgNetwork
    | ApiOutcome.unknownFailure => Except.error (str "Failed to generate notes. Please try again.")

/-- The key-missing precondition messages of `handleGenerateNotes`. -/
def msgOpenAIKeyMissing : Str :=
  str "OpenAI API key not configured. Please add your API key in Settings."

/-- The Anthropic key-missing precondition message. -/
def msgAnthropicKeyMissing : Str :=
  str "Anthropic API key not configured. Please add your API key in Settings."

/-- The missing-transcript precondition message. -/
def msgNoTranscript : Str :=
  str "No transcript available for note generation."

/-- The environment of one workflow invocation: the configured
credentials (from the app context) and the outcome each remote call
would have if made. -/
structure Env where
  openaiKey : Option Str
  anthropicKey : Option Str
  whisper : ApiOutcome
  claude : ApiOutcome
deriving DecidableEq, Repr

/-- The observable result of one invocation of `handleGenerateNotes` on
one record: the final persisted record, the ordered list of status
values written to the store, and whether each remote client function
was entered. -/
structure RunState where
  record : Rec
  statusWrites : List Status
  transcriptionCalled : Bool
  notesCalled : Bool
deriving DecidableEq, Repr

/-- The value `recording.transcript || ''`: the transcript used by the
orchestrator, empty when the field is absent or empty. -/
def getTranscriptText (r : Rec) : Str := r.transcript.getD []

/-- Whether the orchestrator considers a transcript already present
(the falsiness test on `recording.transcript || ''`). -/
def transcriptPresent (r : Rec) : Bool := !(getTranscriptText r).isEmpty

/-- The JS truthiness of `recording.id` (`undefined` and `0` are both
falsy; Dexie auto-increment keys start at 1). -/
def idTruthy (r : Rec) : Bool :=
  match r.id with
  | some i => decide (i ≠ 0)
  | none => false

/-- The note-generation phase of `handleGenerateNotes` (from the
`anthropicKey` check onward): check the credential, check the
transcript is not blank, persist `generating_notes`, call the Notes
Client, and on success persist the notes together with `complete`.
Returns the state so far and the thrown message, if any. -/
def notesPhase (r : Rec) (writes : List Status) (tCalled : Bool) (t : Str)
    (env : Env) : RunState × Option Str :=
  match env.anthropicKey with
  | none => (⟨r, writes, tCalled, false⟩, some msgAnthropicKeyMissing)
  | some _ =>
      if trimStr t = [] then (⟨r, writes, tCalled, false⟩, some msgNoTranscript)
      else
        let r₁ := { r with status := Status.generating_notes }
        let w₁ := writes ++ [Status.generating_notes]
        match generateNotes t env.claude with
        | Except.error e => (⟨r₁, w₁, tCalled, true⟩, some e)
        | Except.ok notes =>
            (⟨{ r₁ with notes := some notes, status := Status.complete },
              w₁ ++ [Status.complete], tCalled, true⟩, none)

/-- The `try` block of `handleGenerateNotes`: when no transcript is
present, check the OpenAI credential, persist `transcribing`, call the
Transcription Client and persist the transcript with `transcribed`;
then run the note-generation phase on the current transcript. -/
def runInner (r : Rec) (env : Env) : RunState × Option Str :=
  let t₀ := getTranscriptText r
  if t₀.isEmpty then
    match env.openaiKey with
    | none => (⟨r, [], false, false⟩, some msgOpenAIKeyMissing)
    | some _ =>
        let r₁ := { r with status := Status.transcribing }
        match transcribeAudio r.audioSize env.whisper with
        | (Except.error e, _) => (⟨r₁, [Status.transcribing], true, false⟩, some e)
        | (Except.ok text, _) =>
            let r₂ := { r₁ with transcript := some text, status := Status.transcribed }
            notesPhase r₂ [Status.transcribing, Status.transcribed] true text env
  else
    notesPhase r [] false t₀ env

/-- Model of `handleGenerateNotes` in `src/components/RecordingItem.tsx`: the
workflow orchestrator.  A record without a (truthy) id returns
immediately; otherwise the `try` block runs, and a thrown message is
caught and persisted as status `error` plus `errorMessage` — the
function itself always returns normally (the exception never crosses
the workflow boundary). -/
def handleGenerateNotes (r : Rec) (env : Env) : RunState :=
  if idTruthy r then
    match runInner r env with
    | (s, none) => s
    | (s, some e) =>
        ⟨{ s.record with status := Status.error, errorMessage := some e },
          s.statusWrites ++ [Status.error], s.transcriptionCalled, s.notesCalled⟩
  else ⟨r, [], false, false⟩

/-- The `disabled` attribute of the "Generate Notes" button in
`RecordingItem`: `isProcessing || recording.status === 'complete'`. -/
def generateNotesDisabled (isProcessing : Bool) (r : Rec) : Bool :=
  isProcessing || r.status == Status.complete

/-- The `MediaRecorder` state values. -/
inductive RecState where
  | inactive
  | recording
  | paused
deriving DecidableEq, Repr

/-- The mutable fields of the `AudioRecorder` class that the duration
arithmetic uses, plus the `MediaRecorder` state; times are
`Date.now()` milliseconds. -/
structure RecorderState where
  recState : RecState
  startTime : Nat
  pausedDuration : Nat
  pauseStartTime : Nat
deriving DecidableEq, Repr

/-- An initialised, not yet started recorder. -/
def recorderInit : RecorderState :=
  ⟨RecState.inactive, 0, 0, 0⟩

/-- Method `AudioRecorder.start` at time `now`: reset the buffer state, record
the start time, clear the accumulated paused time and begin capturing. -/
def startRec (now : Nat) (s : RecorderState) : RecorderState :=
  { s with startTime := now, pausedDuration := 0, recState := RecState.recording }

/-- Method `AudioRecorder.pause` at time `now`: fails unless currently
recording; remembers when the pause began. -/
def pauseRec (now : Nat) (s : RecorderState) : Except Str RecorderState :=
  if s.recState ≠ RecState.recording then Except.error (str "Recorder is not recording")
  else Except.ok { s with pauseStartTime := now, recState := RecState.paused }

/-- Method `AudioRecorder.resume` at time `now`: fails unless currently
paused; adds the just-ended pause interval to the accumulated paused
time. -/
def resumeRec (now : Nat) (s : RecorderState) : Except Str RecorderState :=
  if s.recState ≠ RecState.paused then Except.error (str "Recorder is not paused")
  else Except.ok { s with pausedDuration := s.pausedDuration + (now - s.pauseStartTime),
                          recState := RecState.recording }

/-- The duration reported by `AudioRecorder.stop` at time `now`:
`Math.round((Date.now() - startTime - pausedDuration) / 1000)` seconds
(round half up, exact for the integer millisecond values involved). -/
def stopDuration (now : Nat) (s : RecorderState) : Nat :=
  (now - s.startTime - s.pausedDuration + 500) / 1000

/-- Run a list of `(pauseAt, resumeAt)` pairs through the recorder
(each failing call would propagate its exception, as `await` does). -/
def runPauses : RecorderState → List (Nat × Nat) → Except Str RecorderState
  | s, [] => Except.ok s
  | s, (p, r) :: rest =>
      match pauseRec p s with
      | Except.error e => Except.error e
      | Except.ok s₁ =>
          match resumeRec r s₁ with
          | Except.error e => Except.error e
          | Except.ok s₂ => runPauses s₂ rest

/-- The total paused time of a list of `(pauseAt, resumeAt)` pairs. -/
def sumPaused (pairs : List (Nat × Nat)) : Nat :=
  (pairs.map fun pr => pr.2 - pr.1).sum

/-- A record's update respects the partial-field contract: every field
mentioned in the patch takes the supplied value, every field not
mentioned keeps the record's value (the id is never touched). -/
def patchApplied (r : Rec) (p : RecPatch) : Prop :=
  (applyPatch r p).id = r.id ∧
  (∀ v, p.filename = some v → (applyPatch r p).filename = v) ∧
  (p.filename = none → (applyPatch r p).filename = r.filename) ∧
  (∀ v, p.customName = some v → (applyPatch r p).customName = v) ∧
  (p.customName = none → (applyPatch r p).customName = r.customName) ∧
  (∀ v, p.date = some v → (applyPatch r p).date = v) ∧
  (p.date = none → (applyPatch r p).date = r.date) ∧
  (∀ v, p.duration = some v → (applyPatch r p).duration = v) ∧
  (p.duration = none → (applyPatch r p).duration = r.duration) ∧
  (∀ v, p.audioSize = some v → (applyPatch r p).audioSize = v) ∧
  (p.audioSize = none → (applyPatch r p).audioSize = r.audioSize) ∧
  (∀ v, p.transcript = some v → (applyPatch r p).transcript = v) ∧
  (p.transcript = none → (applyPatch r p).transcript = r.transcript) ∧
  (∀ v, p.notes = some v → (applyPatch r p).notes = v) ∧
  (p.notes = none → (applyPatch r p).notes = r.notes) ∧
  (∀ v, p.status = some v → (applyPatch r p).status = v) ∧
  (p.status = none → (applyPatch r p).status = r.status) ∧
  (∀ v, p.errorMessage = some v → (applyPatch r p).errorMessage = v) ∧
  (p.errorMessage = none → (applyPatch r p).errorMessage = r.errorMessage) ∧
  (∀ v, p.mimeType = some v → (applyPatch r p).mimeType = v) ∧
  (p.mimeType = none → (applyPatch r p).mimeType = r.mimeType) ∧
  (∀ v, p.tags = some v → (applyPatch r p).tags = v) ∧
  (p.tags = none → (applyPatch r p).tags = r.tags) ∧
  (∀ v, p.category = some v → (applyPatch r p).category = v) ∧
  (p.category = none → (applyPatch r p).category = r.category) ∧
  (∀ v, p.subject = some v → (applyPatch r p).subject = v) ∧
  (p.subject = none → (applyPatch r p).subject = r.subject) ∧
  (∀ v, p.searchText = some v → (applyPatch r p).searchText = v) ∧
  (p.searchText = none → (applyPatch r p).searchText = r.searchText) ∧
  (∀ v, p.priority = some v → (applyPatch r p).priority = v) ∧
  (p.priority = none → (applyPatch r p).priority = r.priority) ∧
  (∀ v, p.isStudied = some v → (applyPatch r p).isStudied = v) ∧
  (p.isStudied = none → (applyPatch r p).isStudied = r.isStudied) ∧
  (∀ v, p.lastModified = some v → (applyPatch r p).lastModified = v) ∧
  (p.lastModified = none → (applyPatch r p).lastModified = r.lastModified) ∧
  (∀ v, p.exportedAt = some v → (applyPatch r p).exportedAt = v) ∧
  (p.exportedAt = none → (applyPatch r p).exportedAt = r.exportedAt) ∧
  (∀ v, p.transcriptSegments = some v → (applyPatch r p).transcriptSegments = v) ∧
  (p.transcriptSegments = none → (applyPatch r p).transcriptSegments = r.transcriptSegments)

/-- A completed record with a transcript and previously generated
notes. -/
def recDone : Rec :=
  { baseRec with
    id := some 1
    status := Status.complete
    transcript := some (str "hello")
    notes := some (str "old notes") }

/-- An environment with only the Anthropic key configured and a Notes
Client that would return fresh notes. -/
def envRegen : Env :=
  ⟨none, some (str "sk-ant-key"), ApiOutcome.unknownFailure,
    ApiOutcome.ok (str "new notes")⟩

/-- A transcribed record awaiting note generation. -/
def recTr : Rec :=
  { baseRec with
    id := some 2
    status := Status.transcribed
    transcript := some (str "hi there") }

/-- An environment with both keys configured and both providers
succeeding. -/
def envOk : Env :=
  ⟨some (str "sk-okey"), some (str "sk-ant-akey"), ApiOutcome.ok (str "text"),
    ApiOutcome.ok (str "## Notes")⟩

/-- A freshly recorded record with no transcript. -/
def recNew : Rec := { baseRec with id := some 3 }

/-- An environment with no credentials configured. -/
def envNoKeys : Env :=
  ⟨none, none, ApiOutcome.unknownFailure, ApiOutcome.unknownFailure⟩

/-- A record whose only searchable content is the name "hello world". -/
def recHello : Rec := { baseRec with id := some 4, filename := str "hello world" }

/-- Two records with distinct creation dates. -/
def recEarly : Rec := { baseRec with id := some 5, date := 1000 }

/-- The later of the two dated records. -/
def recLate : Rec := { baseRec with id := some 6, date := 2000 }

/-- A patch touching only the notes and status fields. -/
def patchNotes : RecPatch :=
  { notes := some (some (str "fresh")), status := some Status.complete }

/-- The filter of spec scenario D: tag "physics" and not yet studied. -/
def physicsFilter : FilterOptions :=
  { tags := some [str "physics"], isStudied := some false }

theorem dropWhile_append_all {p : Char → Bool} {a l : Str}
    (h : ∀ c ∈ a, p c = true) :
    (a ++ l).dropWhile p = l.dropWhile p := by
  rw [List.dropWhile_append, List.dropWhile_eq_nil_iff.mpr h]
  simp

theorem trimStr_ws_wrap (a b k : Str)
    (ha : ∀ c ∈ a, jsIsSpace c = true) (hb : ∀ c ∈ b, jsIsSpace c = true) :
    trimStr (a ++ k ++ b) = trimStr k := by
  unfold trimStr
  rw [List.append_assoc, dropWhile_append_all ha]
  by_cases hk : (k ++ b).dropWhile jsIsSpace = []
  · rw [hk]
    have hkk : k.dropWhile jsIsSpace = [] := by
      rw [List.dropWhile_eq_nil_iff] at hk ⊢
      intro c hc
      exact hk c (by simp [hc])
    rw [hkk]
  · have hknil : k.dropWhile jsIsSpace ≠ [] := by
      intro hkk
      apply hk
      rw [List.dropWhile_append, hkk]
      simp [List.dropWhile_eq_nil_iff.mpr hb]
    have hsplit : (k ++ b).dropWhile jsIsSpace = k.dropWhile jsIsSpace ++ b := by
      rw [List.dropWhile_append]
      simp [List.isEmpty_iff, hknil]
    rw [hsplit, List.reverse_append, dropWhile_append_all (by simpa using hb)]

/-- C10: credential format validation trims surrounding whitespace and
checks a prefix convention; wrapping a key in whitespace never changes
either validator's verdict, and, because `sk-` is a prefix of
`sk-ant-`, every key the Anthropic validator accepts is also accepted
by the OpenAI validator. -/
theorem apiKey_validation_c10 (k : Str) :
    (validateOpenAIKey k = true ↔ (str "sk-").isPrefixOf (trimStr k) = true) ∧
    (validateAnthropicKey k = true ↔ (str "sk-ant-").isPrefixOf (trimStr k) = true) ∧
    (∀ a b : Str, (∀ c ∈ a, jsIsSpace c = true) → (∀ c ∈ b, jsIsSpace c = true) →
      validateOpenAIKey (a ++ k ++ b) = validateOpenAIKey k ∧
      validateAnthropicKey (a ++ k ++ b) = validateAnthropicKey k) ∧
    (validateAnthropicKey k = true → validateOpenAIKey k = true) := by
  refine ⟨Iff.rfl, Iff.rfl, ?_, ?_⟩
  · intro a b ha hb
    unfold validateOpenAIKey validateAnthropicKey
    rw [trimStr_ws_wrap a b k ha hb]
    exact ⟨rfl, rfl⟩
  · intro h
    unfold validateOpenAIKey
    unfold validateAnthropicKey at h
    rw [List.isPrefixOf_iff_prefix] at h ⊢
    exact List.IsPrefix.trans (by decide) h

/-- Witness for C10 at a concrete key wrapped in whitespace. -/
theorem apiKey_validation_c10_w :
    validateOpenAIKey (str " " ++ str "sk-ant-abc" ++ str " ") = true := by
  have h := apiKey_validation_c10 (str "sk-ant-abc")
  rw [(h.2.2.1 (str " ") (str " ") (by decide) (by decide)).1]
  exact h.2.2.2 (by decide)

/-- C4: the Transcription Client accepts a payload of exactly the 25 MB
ceiling (the provider call is still made) and rejects any strictly
larger payload with the descriptive size-limit message, without calling
the provider. -/
theorem transcribe_size_boundary_c4 (size : Nat) (api : ApiOutcome) :
    (size ≤ sizeLimitBytes → (transcribeAudio size api).2 = true) ∧
    (sizeLimitBytes < size →
      transcribeAudio size api = (Except.error msgPayloadTooLarge, false)) := by
  constructor
  · intro h
    unfold transcribeAudio
    rw [if_neg (by omega)]
    cases api with
    | ok text => by_cases ht : trimStr text = [] <;> simp [ht]
    | apiError status msg => rfl
    | networkFailure => rfl
    | unknownFailure => rfl
  · intro h
    unfold transcribeAudio
    rw [if_pos h]

/-- Witness for C4 at the exact boundary sizes. -/
theorem transcribe_size_boundary_c4_w :
    (transcribeAudio (25 * 1024 * 1024) ApiOutcome.networkFailure).2 = true ∧
    transcribeAudio (25 * 1024 * 1024 + 1) ApiOutcome.networkFailure =
      (Except.error msgPayloadTooLarge, false) :=
  ⟨(transcribe_size_boundary_c4 (25 * 1024 * 1024) ApiOutcome.networkFailure).1 (by decide),
   (transcribe_size_boundary_c4 (25 * 1024 * 1024 + 1) ApiOutcome.networkFailure).2 (by decide)⟩

/-- C5, counterexample: updating an id that is absent from the store
does not fail — `updateRecording` resolves normally with a count of 0
and an unchanged store (Dexie's `update` never rejects for a missing
key). -/
theorem updateRecording_absent_c5_cx :
    (updateRecording ([] : Store) 1 patchNotes).isOk = true ∧
    updateRecording ([] : Store) 1 patchNotes = Except.ok (0, []) :=
  ⟨rfl, rfl⟩

theorem patchApplied_holds (r : Rec) (p : RecPatch) : patchApplied r p := by
  unfold patchApplied
  repeat' apply And.intro
  all_goals
    first
      | rfl
      | (intro v h; simp [applyPatch, h])
      | (intro h; simp [applyPatch, h])

/-- C5, amended: `update(id, partialFields)` returns a count of 0 and
leaves the store unchanged when the id is absent (it does not raise);
when a record with the id exists it returns 1, replaces exactly that
record by the patched record, and the patch applies exactly the
mentioned fields, leaving every other field (and the id) unchanged. -/
theorem updateRecording_c5_amended (store : Store) (id : Nat) (p : RecPatch) :
    ((∀ r ∈ store, r.id ≠ some id) →
      updateRecording store id p = Except.ok (0, store)) ∧
    (∀ r ∈ store, r.id = some id →
      updateRecording store id p =
        Except.ok (1, store.map fun x => if x.id == some id then applyPatch x p else x) ∧
      patchApplied r p) := by
  constructor
  · intro h
    unfold updateRecording
    rw [if_neg]
    intro hany
    rw [List.any_eq_true] at hany
    obtain ⟨r, hr, hbeq⟩ := hany
    exact h r hr (by simpa using hbeq)
  · intro r hr hid
    refine ⟨?_, patchApplied_holds r p⟩
    unfold updateRecording
    rw [if_pos]
    rw [List.any_eq_true]
    exact ⟨r, hr, by simp [hid]⟩

/-- Witness for C5 on a one-record store and a notes patch. -/
theorem updateRecording_c5_amended_w :
    updateRecording [recDone] 1 patchNotes =
      Except.ok (1, List.map (fun x => if x.id == some 1 then applyPatch x patchNotes else x)
        [recDone]) ∧
    patchApplied recDone patchNotes :=
  (updateRecording_c5_amended [recDone] 1 patchNotes).2 recDone (by simp) rfl

theorem notesPhase_cases (r : Rec) (w : List Status) (tc : Bool) (t : Str) (env : Env) :
    (∃ m, notesPhase r w tc t env = (⟨r, w, tc, false⟩, some m)) ∨
    (∃ e, notesPhase r w tc t env =
      (⟨{ r with status := Status.generating_notes },
        w ++ [Status.generating_notes], tc, true⟩, some e)) ∨
    (∃ notes, notesPhase r w tc t env =
      (⟨{ r with status := Status.complete, notes := some notes },
        w ++ [Status.generating_notes, Status.complete], tc, true⟩, none)) := by
  unfold notesPhase
  cases env.anthropicKey with
  | none => exact Or.inl ⟨msgAnthropicKeyMissing, rfl⟩
  | some k =>
      dsimp only
      by_cases ht : trimStr t = []
      · rw [if_pos ht]
        exact Or.inl ⟨msgNoTranscript, rfl⟩
      · rw [if_neg ht]
        cases generateNotes t env.claude with
        | error e =>
            refine Or.inr (Or.inl ⟨e, ?_⟩)
            rfl
        | ok notes =>
            refine Or.inr (Or.inr ⟨notes, ?_⟩)
            dsimp only
            rw [List.append_assoc]
            rfl

theorem runInner_of_transcript (r : Rec) (env : Env)
    (ht : transcriptPresent r = true) :
    runInner r env = notesPhase r [] false (getTranscriptText r) env := by
  have ht' : (getTranscriptText r).isEmpty = false := by
    unfold transcriptPresent at ht
    cases h : (getTranscriptText r).isEmpty
    · rfl
    · rw [h] at ht
      simp at ht
  unfold runInner
  simp only [ht', Bool.false_eq_true, if_false]

theorem handle_present_core (r : Rec) (env : Env)
    (hid : idTruthy r = true) (ht : transcriptPresent r = true) :
    (handleGenerateNotes r env).transcriptionCalled = false ∧
    Status.transcribing ∉ (handleGenerateNotes r env).statusWrites ∧
    (handleGenerateNotes r env).record.transcript = r.transcript ∧
    ((runInner r env).2 = none →
      (handleGenerateNotes r env).statusWrites =
        [Status.generating_notes, Status.complete] ∧
      (handleGenerateNotes r env).record.status = Status.complete ∧
      (handleGenerateNotes r env).notesCalled = true) := by
  have hrun := runInner_of_transcript r env ht
  unfold handleGenerateNotes
  rw [if_pos hid, hrun]
  rcases notesPhase_cases r [] false (getTranscriptText r) env with
    ⟨m, hnp⟩ | ⟨e, hnp⟩ | ⟨notes, hnp⟩
  · rw [hnp]
    dsimp only
    refine ⟨rfl, by decide, rfl, ?_⟩
    intro hc
    simp at hc
  · rw [hnp]
    dsimp only
    refine ⟨rfl, by decide, rfl, ?_⟩
    intro hc
    simp at hc
  · rw [hnp]
    dsimp only
    exact ⟨rfl, by decide, rfl, fun _ => ⟨by simp, rfl, rfl⟩⟩

/-- C2: on a record with a non-empty transcript the workflow never
enters the Transcription Client, never writes status `transcribing`,
leaves the stored transcript unchanged, and when the run succeeds the
only status writes are `generating_notes` then `complete`. -/
theorem workflow_skip_transcription_c2 (r : Rec) (env : Env)
    (hid : idTruthy r = true) (ht : transcriptPresent r = true) :
    (handleGenerateNotes r env).transcriptionCalled = false ∧
    Status.transcribing ∉ (handleGenerateNotes r env).statusWrites ∧
    (handleGenerateNotes r env).record.transcript = r.transcript ∧
    ((runInner r env).2 = none →
      (handleGenerateNotes r env).statusWrites =
        [Status.generating_notes, Status.complete] ∧
      (handleGenerateNotes r env).record.status = Status.complete ∧
      (handleGenerateNotes r env).notesCalled = true) :=
  handle_present_core r env hid ht

/-- Witness for C2 on a transcribed record with both providers
succeeding. -/
theorem workflow_skip_transcription_c2_w :
    (handleGenerateNotes recTr envOk).transcriptionCalled = false ∧
    (handleGenerateNotes recTr envOk).record.transcript = recTr.transcript ∧
    (handleGenerateNotes recTr envOk).statusWrites =
      [Status.generating_notes, Status.complete] := by
  have h := workflow_skip_transcription_c2 recTr envOk (by decide) (by decide)
  exact ⟨h.1, h.2.2.1, (h.2.2.2 rfl).1⟩

/-- C3: whatever failure the `try` block of the workflow raises, the
orchestrator catches it, persists the message in `errorMessage`, sets
status `error` (as the final status write), and returns normally. -/
theorem workflow_error_persisted_c3 (r : Rec) (env : Env) (e : Str)
    (hid : idTruthy r = true) (he : (runInner r env).2 = some e) :
    (handleGenerateNotes r env).record.status = Status.error ∧
    (handleGenerateNotes r env).record.errorMessage = some e ∧
    (handleGenerateNotes r env).statusWrites =
      (runInner r env).1.statusWrites ++ [Status.error] := by
  rcases hrun : runInner r env with ⟨s, o⟩
  rw [hrun] at he
  dsimp only at he
  subst he
  unfold handleGenerateNotes
  rw [if_pos hid, hrun]
  exact ⟨rfl, rfl, rfl⟩

/-- Witness for C3: a record with no transcript and no configured
OpenAI key fails the credential precondition and ends in status
`error` carrying that message. -/
theorem workflow_error_persisted_c3_w :
    (handleGenerateNotes recNew envNoKeys).record.status = Status.error ∧
    (handleGenerateNotes recNew envNoKeys).record.errorMessage =
      some msgOpenAIKeyMissing ∧
    (handleGenerateNotes recNew envNoKeys).statusWrites =
      (runInner recNew envNoKeys).1.statusWrites ++ [Status.error] :=
  workflow_error_persisted_c3 recNew envNoKeys msgOpenAIKeyMissing (by decide) rfl

/-- C1, counterexample: on a record already in status `complete` (with
its transcript and old notes), a direct call of `handleGenerateNotes`
is not a no-op — with the Anthropic key configured and the provider
returning new text, the stored notes are overwritten. -/
theorem workflow_complete_c1_cx :
    recDone.status = Status.complete ∧
    (handleGenerateNotes recDone envRegen).record.notes ≠ recDone.notes := by
  refine ⟨rfl, ?_⟩
  decide

theorem notesPhase_success (r : Rec) (w : List Status) (tc : Bool) (t : Str)
    (env : Env) (k : Str) (hk : env.anthropicKey = some k)
    (htr : trimStr t ≠ []) (tcl : Str) (hcl : env.claude = ApiOutcome.ok tcl)
    (htcl : trimStr tcl ≠ []) :
    notesPhase r w tc t env =
      (⟨{ r with status := Status.complete, notes := some (trimStr tcl) },
        w ++ [Status.generating_notes, Status.complete], tc, true⟩, none) := by
  have hg : generateNotes t env.claude = Except.ok (trimStr tcl) := by
    unfold generateNotes
    rw [if_neg htr, hcl]
    dsimp only
    rw [if_neg htcl]
  unfold notesPhase
  rw [hk]
  dsimp only
  rw [if_neg htr, hg]
  dsimp only
  rw [List.append_assoc]
  rfl

/-- C1, amended: invocation from `complete` is blocked only at the UI
level — the Generate Notes button is disabled whenever the record's
status is `complete` — while a direct call of `handleGenerateNotes` on
a `complete` record (which has a transcript) skips transcription and
leaves the transcript unchanged, but re-runs note generation: on a
successful provider call it ends in `complete` again with the notes
overwritten by the new (trimmed) provider text. -/
theorem workflow_complete_c1_amended (r : Rec) (env : Env)
    (hst : r.status = Status.complete) :
    (∀ b : Bool, generateNotesDisabled b r = true) ∧
    (idTruthy r = true → transcriptPresent r = true →
      (handleGenerateNotes r env).transcriptionCalled = false ∧
      (handleGenerateNotes r env).record.transcript = r.transcript) ∧
    (∀ k tcl, idTruthy r = true → transcriptPresent r = true →
      env.anthropicKey = some k → env.claude = ApiOutcome.ok tcl →
      trimStr tcl ≠ [] → trimStr (getTranscriptText r) ≠ [] →
      (handleGenerateNotes r env).record.status = Status.complete ∧
      (handleGenerateNotes r env).record.notes = some (trimStr tcl) ∧
      (handleGenerateNotes r env).record.transcript = r.transcript) := by
  refine ⟨?_, ?_, ?_⟩
  · intro b
    unfold generateNotesDisabled
    rw [hst]
    simp
  · intro hid ht
    have h := handle_present_core r env hid ht
    exact ⟨h.1, h.2.2.1⟩
  · intro k tcl hid ht hk hcl htcl htr
    have hrun := runInner_of_transcript r env ht
    have hnp := notesPhase_success r [] false (getTranscriptText r) env k hk htr
      tcl hcl htcl
    unfold handleGenerateNotes
    rw [if_pos hid, hrun, hnp]
    exact ⟨rfl, rfl, rfl⟩

/-- Witness for C1 on the completed record being regenerated. -/
theorem workflow_complete_c1_amended_w :
    generateNotesDisabled false recDone = true ∧
    (handleGenerateNotes recDone envRegen).record.status = Status.complete ∧
    (handleGenerateNotes recDone envRegen).record.notes =
      some (trimStr (str "new notes")) := by
  have h := workflow_complete_c1_amended recDone envRegen rfl
  have h3 := h.2.2 (str "sk-ant-key") (str "new notes") (by decide) (by decide)
    rfl rfl (by decide) (by decide)
  exact ⟨h.1 false, h3.1, h3.2.1⟩

/-- C9: a blank (empty or whitespace-only) query does not filter at all
— `searchRecordings` returns exactly `getAllRecordings`, the full table
sorted newest-first (pairwise non-increasing dates). -/
theorem searchRecordings_blank_c9 (store : Store) (q : Str)
    (h : trimStr q = []) :
    searchRecordings store q = getAllRecordings store ∧
    (searchRecordings store q).Pairwise (fun a b => b.date ≤ a.date) := by
  have h1 : searchRecordings store q = getAllRecordings store := by
    unfold searchRecordings
    rw [if_pos h]
  refine ⟨h1, ?_⟩
  rw [h1]
  unfold getAllRecordings
  rw [List.pairwise_reverse]
  have hs := @List.sorted_mergeSort Rec (fun a b => decide (a.date ≤ b.date))
    (by
      intro a b c hab hbc
      simp only [decide_eq_true_eq] at *
      omega)
    (by
      intro a b
      simp [Nat.le_total])
    store
  exact hs.imp fun hab => by simpa using hab

/-- Witness for C9 on a two-record store and a whitespace query. -/
theorem searchRecordings_blank_c9_w :
    searchRecordings [recEarly, recLate] (str "  ") =
      getAllRecordings [recEarly, recLate] ∧
    (searchRecordings [recEarly, recLate] (str "  ")).Pairwise
      (fun a b => b.date ≤ a.date) :=
  searchRecordings_blank_c9 [recEarly, recLate] (str "  ") (by decide)

/-- C7: `filterRecordings` with tag list `["physics"]` and
`isStudied := false` returns exactly (up to the final date sort) the
records that carry the tag AND are unstudied; criteria combine by AND,
the tag list matches by OR. -/
theorem filterRecordings_c7 (store : Store) :
    List.Perm (filterRecordings physicsFilter store)
      (store.filter fun r =>
        ((r.tags.getD []).any fun t => ([str "physics"]).contains t) &&
        (r.isStudied == some false)) ∧
    ∀ r, r ∈ filterRecordings physicsFilter store ↔
      (r ∈ store ∧ str "physics" ∈ r.tags.getD [] ∧ r.isStudied = some false) := by
  have hred : filterRecordings physicsFilter store =
      sortByDateDesc
        ((store.filter fun r => (r.tags.getD []).any fun t => ([str "physics"]).contains t).filter
          fun r => r.isStudied == some false) := rfl
  have hperm : List.Perm (filterRecordings physicsFilter store)
      (store.filter fun r =>
        ((r.tags.getD []).any fun t => ([str "physics"]).contains t) &&
        (r.isStudied == some false)) := by
    rw [hred]
    unfold sortByDateDesc
    refine (List.mergeSort_perm _ _).trans ?_
    rw [List.filter_filter]
    exact List.Perm.of_eq (List.filter_congr fun x _ => Bool.and_comm _ _)
  refine ⟨hperm, ?_⟩
  intro r
  rw [hperm.mem_iff, List.mem_filter]
  simp [List.any_eq_true]

/-- C8: the recorder's reported duration excludes exactly the paused
intervals accumulated through pause/resume pairs — for a session
started at `t0`, paused and resumed along `pairs`, and stopped at
`tEnd`, the reported duration is the wall-clock time minus the summed
paused time, rounded to whole seconds. -/
theorem recorder_duration_c8 (t0 tEnd : Nat) (pairs : List (Nat × Nat))
    (hp : ∀ pr ∈ pairs, pr.1 ≤ pr.2) :
    (runPauses (startRec t0 recorderInit) pairs).map (fun s => stopDuration tEnd s) =
      Except.ok ((tEnd - t0 - sumPaused pairs + 500) / 1000) := by
  have key : ∀ (ps : List (Nat × Nat)) (s : RecorderState),
      s.recState = RecState.recording → (∀ pr ∈ ps, pr.1 ≤ pr.2) →
      ∃ s', runPauses s ps = Except.ok s' ∧ s'.recState = RecState.recording ∧
        s'.startTime = s.startTime ∧
        s'.pausedDuration = s.pausedDuration + sumPaused ps := by
    intro ps
    induction ps with
    | nil =>
        intro s hs _
        exact ⟨s, rfl, hs, rfl, by simp [sumPaused]⟩
    | cons pr rest ih =>
        intro s hs hall
        obtain ⟨p, r⟩ := pr
        have h1 : pauseRec p s =
            Except.ok { s with pauseStartTime := p, recState := RecState.paused } := by
          unfold pauseRec
          rw [if_neg (by simp [hs])]
        have h2 : resumeRec r { s with pauseStartTime := p, recState := RecState.paused } =
            Except.ok { s with pauseStartTime := p, recState := RecState.recording,
                               pausedDuration := s.pausedDuration + (r - p) } := by
          unfold resumeRec
          rw [if_neg (by simp)]
        obtain ⟨s', hrun, hrs, hst, hpd⟩ := ih
          { s with pauseStartTime := p, recState := RecState.recording,
                   pausedDuration := s.pausedDuration + (r - p) }
          rfl (fun x hx => hall x (List.mem_cons_of_mem _ hx))
        refine ⟨s', ?_, hrs, hst, ?_⟩
        · unfold runPauses
          rw [h1]
          dsimp only
          rw [h2]
          dsimp only
          exact hrun
        · rw [hpd]
          simp [sumPaused]
          omega
  obtain ⟨s', hrun, _, hst, hpd⟩ := key pairs (startRec t0 recorderInit) rfl hp
  rw [hrun]
  unfold Except.map
  dsimp only
  unfold stopDuration
  rw [hst, hpd]
  simp [startRec, recorderInit]

/-- Witness for C8 at spec scenario E: pause at 5 s, resume at 8 s, stop
at 18 s gives a reported duration of 15 s. -/
theorem recorder_duration_c8_w :
    (runPauses (startRec 0 recorderInit) [(5000, 8000)]).map
      (fun s => stopDuration 18000 s) = Except.ok 15 := by
  rw [recorder_duration_c8 0 18000 [(5000, 8000)] (by decide)]
  rfl

/-- C6, counterexample: punctuation in the query is not normalized —
the record whose name is "hello world" is found by the query
"hello world" but not by "hello, world". -/
theorem search_punctuation_c6_cx :
    searchRecordings [recHello] (str "hello, world") = [] ∧
    searchRecordings [recHello] (str "hello world") = [recHello] := by
  constructor <;> decide

theorem mem_of_mem_trimStr {c : Char} {s : Str} (h : c ∈ trimStr s) : c ∈ s := by
  unfold trimStr at h
  rw [List.mem_reverse] at h
  have h2 := (List.dropWhile_sublist jsIsSpace).mem h
  rw [List.mem_reverse] at h2
  exact (List.dropWhile_sublist jsIsSpace).mem h2

theorem trimStr_eq_nil_iff (s : Str) :
    trimStr s = [] ↔ ∀ c ∈ s, jsIsSpace c = true := by
  unfold trimStr
  rw [List.reverse_eq_nil_iff, List.dropWhile_eq_nil_iff]
  constructor
  · intro h c hc
    rw [← List.takeWhile_append_dropWhile jsIsSpace s, List.mem_append] at hc
    rcases hc with hc | hc
    · exact List.mem_takeWhile_imp hc
    · exact h c (List.mem_reverse.mpr hc)
  · intro h c hc
    rw [List.mem_reverse] at hc
    exact h c ((List.dropWhile_sublist jsIsSpace).mem hc)

theorem jsIsSpace_toLower (c : Char) : jsIsSpace (Char.toLower c) = jsIsSpace c := by
  unfold Char.toLower
  dsimp only
  split
  · rename_i h
    have h1 : (Char.ofNat (Char.toNat c + 32)).toNat = Char.toNat c + 32 := by
      rw [Char.ofNat, dif_pos (Or.inl (by omega : Char.toNat c + 32 < 55296))]
      rfl
    have hA : jsIsSpace (Char.ofNat (Char.toNat c + 32)) = false := by
      simp only [jsIsSpace, h1, Bool.or_eq_false_iff, decide_eq_false_iff_not]
      omega
    have hB : jsIsSpace c = false := by
      simp only [jsIsSpace, Bool.or_eq_false_iff, decide_eq_false_iff_not]
      omega
    rw [hA, hB]
  · rfl

theorem all_ws_iff_toLower (s : Str) :
    (∀ c ∈ toLowerStr s, jsIsSpace c = true) ↔ (∀ c ∈ s, jsIsSpace c = true) := by
  unfold toLowerStr
  rw [List.forall_mem_map]
  constructor <;> intro h c hc
  · have := h c hc
    rwa [jsIsSpace_toLower] at this
  · rw [jsIsSpace_toLower]
    exact h c hc

theorem replaceSpecial_chars (s : Str) :
    ∀ c ∈ replaceSpecial s, isWordChar c = true ∨ jsIsSpace c = true := by
  unfold replaceSpecial
  intro c hc
  rw [List.mem_map] at hc
  obtain ⟨x, _, hx⟩ := hc
  by_cases hcond : (isWordChar x || jsIsSpace x) = true
  · rw [if_pos hcond] at hx
    subst hx
    rcases Bool.or_eq_true_iff.mp hcond with h | h
    · exact Or.inl h
    · exact Or.inr h
  · rw [if_neg hcond] at hx
    subst hx
    exact Or.inr (by decide)

theorem collapseWs_chars :
    ∀ (s : Str), (∀ c ∈ s, isWordChar c = true ∨ jsIsSpace c = true) →
      ∀ c ∈ collapseWs s, isWordChar c = true ∨ c = ' ' := by
  intro s
  induction s with
  | nil =>
      intro _ c hc
      simp [collapseWs] at hc
  | cons a t ih =>
      intro h c hc
      cases t with
      | nil =>
          unfold collapseWs at hc
          by_cases ha : jsIsSpace a = true
          · rw [if_pos ha] at hc
            rw [List.mem_singleton] at hc
            exact Or.inr hc
          · rw [if_neg ha] at hc
            rw [List.mem_singleton] at hc
            subst hc
            rcases h c (List.mem_singleton_self c) with hw | hs
            · exact Or.inl hw
            · exact absurd hs ha
      | cons b t' =>
          have ih' := ih (fun x hx => h x (List.mem_cons_of_mem a hx))
          unfold collapseWs at hc
          by_cases hab : (jsIsSpace a && jsIsSpace b) = true
          · rw [if_pos hab] at hc
            exact ih' c hc
          · rw [if_neg hab] at hc
            rcases List.mem_cons.mp hc with hc1 | hc2
            · by_cases ha : jsIsSpace a = true
              · rw [if_pos ha] at hc1
                exact Or.inr hc1
              · rw [if_neg ha] at hc1
                subst hc1
                rcases h c (List.mem_cons_self c (b :: t')) with hw | hs
                · exact Or.inl hw
                · exact absurd hs ha
            · exact ih' c hc2

theorem generateSearchText_chars (r : Rec) :
    ∀ c ∈ generateSearchText r, isWordChar c = true ∨ c = ' ' := by
  intro c hc
  unfold generateSearchText at hc
  exact collapseWs_chars _ (replaceSpecial_chars _) c (mem_of_mem_trimStr hc)

/-- C6, amended: free-text search is case-insensitive (two queries equal
up to letter case produce identical results) and the searchable blob
derived from a record's fields is punctuation-free (every character of
`generateSearchText` is a `\w` word character or a single space), so
punctuation in the *record's fields* never blocks a match; punctuation
in the *query*, however, is kept verbatim, so a punctuated query can
fail to match (see the counterexample). -/
theorem search_normalization_c6_amended (store : Store) (q q' : Str) (r : Rec)
    (h : toLowerStr q = toLowerStr q') :
    searchRecordings store q = searchRecordings store q' ∧
    (∀ c ∈ generateSearchText r, isWordChar c = true ∨ c = ' ') := by
  refine ⟨?_, generateSearchText_chars r⟩
  have h3 : trimStr q = [] ↔ trimStr q' = [] := by
    rw [trimStr_eq_nil_iff, trimStr_eq_nil_iff, ← all_ws_iff_toLower q,
      ← all_ws_iff_toLower q', h]
  unfold searchRecordings
  by_cases hq : trimStr q = []
  · rw [if_pos hq, if_pos (h3.mp hq)]
  · rw [if_neg hq, if_neg (fun hh => hq (h3.mpr hh)), h]

/-- Witness for C6 on the "hello world" record: an upper-case query and
its lower-case form return the same result. -/
theorem search_normalization_c6_amended_w :
    searchRecordings [recHello] (str "HELLO World") =
      searchRecordings [recHello] (str "hello world") :=
  (search_normalization_c6_amended [recHello] (str "HELLO World")
    (str "hello world") recHello (by decide)).1

end Dozey
